import Mathlib

/-!
# Verification of the NYUSIM-in-ns3 channel modeling core

Shallow embedding of the NYUSIM channel model components (condition model,
path-loss model, channel-matrix generator, spectrum applier) together with
the example program `nyu-channel-example-calPL-mobileNodes.cc`.

The repository ships only the example programs, the READMEs and the header
`nyu-spectrum-propagation-loss-model.h`; the `.cc` implementation files
(`nyu-channel-condition-model.cc`, `nyu-propagation-loss-model.cc`,
`nyu-channel-model.cc`, `nyu-spectrum-propagation-loss-model.cc`) are not
part of the excerpt.  Components whose implementation is missing are
modelled from the specification; every such definition carries a doc
comment starting with `Modelled from the spec:`.
-/

namespace NYU

/-! ## Random number generator

Modelled from the spec: "Process-wide random seed/run state is replaced by
an explicit random-generator handle threaded through every generation
call, preserving reproducibility without hidden global mutable state."
A deterministic linear-congruential stream stands in for ns-3's RNG. -/

/-- Modelled from the spec: one step of the deterministic random stream
(the concrete recurrence is a stand-in for ns-3's MRG32k3a, which is not in
the excerpt; only determinism and statefulness matter to the claims). -/
def rngNext (s : ℕ) : ℕ := (1103515245 * s + 12345) % 2147483648

/-- Modelled from the spec: derives the initial stream state from the
seed/run pair set through `RngSeedManager::SetSeed` / `SetRun`. -/
def rngInitState (seed run : ℕ) : ℕ := rngNext (seed * 65537 + run)

/-- Draw one natural number, returning the value and the advanced state. -/
def drawNat (s : ℕ) : ℕ × ℕ :=
  let s' := rngNext s
  (s', s')

/-- Draw `n` natural numbers, threading the stream state. -/
def drawN : ℕ → ℕ → List ℕ × ℕ
  | 0, s => ([], s)
  | n + 1, s =>
    let (k, s') := drawNat s
    let (ks, s'') := drawN n s'
    (k :: ks, s'')

/-- Draw a rational in `[0,1)` (resolution 1/1000), threading the state. -/
def drawUnit (s : ℕ) : ℚ × ℕ :=
  let (k, s') := drawNat s
  (((k % 1000 : ℕ) : ℚ) / 1000, s')

/-! ## Scenario and condition data model -/

/-- The five supported propagation scenarios (`Uma`, `Umi`, `Rma`, `InH`,
`InF`), mirroring the five `NYU*PropagationLossModel` classes dispatched in
the example programs. -/
inductive Scenario where
  | Uma | Umi | Rma | InH | InF
deriving DecidableEq, Repr

/-- LOS/NLOS channel condition state. -/
inductive CondState where
  | LOS | NLOS
deriving DecidableEq, Repr

/-- `ChannelCondition`: `{state ∈ {LOS, NLOS}, outdoorToIndoor, lastUpdateTime}`. -/
structure ChannelCondition where
  state : CondState
  outdoorToIndoor : Bool
  lastUpdateTime : ℚ
deriving DecidableEq, Repr

/-- A node as the condition model sees it: an identifier plus a 3-D position. -/
structure NodeInfo where
  ident : ℕ
  x : ℚ
  y : ℚ
  z : ℚ
deriving DecidableEq, Repr

/-- Link key: unordered pair of node identifiers (symmetric by
construction, `key a b = key b a`). -/
def linkKey (a b : ℕ) : ℕ × ℕ := (min a b, max a b)

/-- Squared 2-D (ground-plane) distance between two nodes. -/
def dist2DSq (a b : NodeInfo) : ℚ := (a.x - b.x) ^ 2 + (a.y - b.y) ^ 2

/-- Squared 3-D distance between two nodes. -/
def dist3DSq (a b : NodeInfo) : ℚ :=
  (a.x - b.x) ^ 2 + (a.y - b.y) ^ 2 + (a.z - b.z) ^ 2

/-- Computable square-root approximation on rationals (resolution 1/1000),
used to turn squared distances into distances. -/
def ratSqrt (q : ℚ) : ℚ := ((Nat.sqrt (q * 1000000).floor.toNat : ℚ)) / 1000

/-- 3-D distance between two nodes. -/
def dist3D (a b : NodeInfo) : ℚ := ratSqrt (dist3DSq a b)

/-- First-match association-list lookup used by all per-link caches. -/
def findEntry {κ β : Type} [DecidableEq κ] (k : κ) : List (κ × β) → Option β
  | [] => none
  | (k', v) :: t => if k' = k then some v else findEntry k t

/-! ## ConditionModel

Modelled from the spec: `GetCondition(linkKey, now) → ChannelCondition`;
reuse the cached entry if `now − lastUpdateTime < updatePeriod`, with
`updatePeriod == 0` meaning "generate once, never refresh"; otherwise
draw LOS with a scenario-specific probability that is a function of the
2-D distance, then independently draw the outdoor-to-indoor state. -/

/-- Modelled from the spec: the scenario-specific LOS probability as a
function of the squared 2-D distance (a monotone stand-in for the empirical
fits; only its dependence on scenario and symmetric distance matters). -/
def losProbability (s : Scenario) (d2sq : ℚ) : ℚ :=
  match s with
  | .Uma => 1 / (1 + d2sq / 400)
  | .Umi => 1 / (1 + d2sq / 100)
  | .Rma => 1 / (1 + d2sq / 10000)
  | .InH => 1 / (1 + d2sq / 25)
  | .InF => 1 / (1 + d2sq / 64)

/-- Modelled from the spec: the probability that a link is in
outdoor-to-indoor state, for the scenarios where it applies. -/
def o2iProbability (s : Scenario) : ℚ :=
  match s with
  | .Uma => 1 / 5
  | .Umi => 1 / 5
  | .Rma => 1 / 10
  | .InH => 0
  | .InF => 0

/-- Modelled from the spec: draw a fresh channel condition for a link:
classify LOS vs NLOS against the scenario LOS probability, independently
draw the outdoor-to-indoor state, stamp with the current time. -/
def drawCondition (rng : ℕ) (s : Scenario) (d2sq : ℚ) (now : ℚ) :
    ChannelCondition × ℕ :=
  let (u, r1) := drawUnit rng
  let st := if u < losProbability s d2sq then CondState.LOS else CondState.NLOS
  let (v, r2) := drawUnit r1
  ({ state := st, outdoorToIndoor := decide (v < o2iProbability s),
     lastUpdateTime := now }, r2)

/-- State of the condition model: the per-link cache plus the RNG stream. -/
structure CondModelState where
  cache : List ((ℕ × ℕ) × ChannelCondition)
  rng : ℕ
deriving DecidableEq, Repr

/-- The fresh condition model state for a given seed/run pair. -/
def condModelInit (seed run : ℕ) : CondModelState :=
  { cache := [], rng := rngInitState seed run }

/-- Draw a fresh condition and store it in the cache under the link key. -/
def storeCondition (s : Scenario) (st : CondModelState) (key : ℕ × ℕ)
    (d2sq now : ℚ) : ChannelCondition × CondModelState :=
  ((drawCondition st.rng s d2sq now).1,
   { cache := (key, (drawCondition st.rng s d2sq now).1) :: st.cache,
     rng := (drawCondition st.rng s d2sq now).2 })

/-- Modelled from the spec: `GetCondition(linkKey, now)`.  If a cached
entry exists and `updatePeriod = 0` (generate once, never refresh) or
`now − lastUpdateTime < updatePeriod`, return the cached value unchanged;
otherwise draw a new condition and store it with the updated timestamp. -/
def getCondition (s : Scenario) (updatePeriod : ℚ) (st : CondModelState)
    (a b : NodeInfo) (now : ℚ) : ChannelCondition × CondModelState :=
  match findEntry (linkKey a.ident b.ident) st.cache with
  | some e =>
    if updatePeriod = 0 ∨ now - e.lastUpdateTime < updatePeriod then
      (e, st)
    else
      storeCondition s st (linkKey a.ident b.ident) (dist2DSq a b) now
  | none => storeCondition s st (linkKey a.ident b.ident) (dist2DSq a b) now

/-! ## Scenario dispatch of the example programs

Embeds `main` of `nyu-channel-example-calPL-mobileNodes.cc` (lines
102-130): the if/else chain over the `scenario` string that configures the
propagation-loss and channel-condition factories, with `NS_FATAL_ERROR
("Unknown scenario")` on any other tag. -/

/-- The pair of type ids the example's factories are configured with. -/
inductive FactoryTag where
  | UmaFactories | UmiFactories | RmaFactories | InHFactories | InFFactories
deriving DecidableEq, Repr

/-- The example's scenario dispatch: `"Umi"`, `"Uma"`, `"Rma"`, `"InH"`,
`"InF"` select the matching factory pair, in the order the source tests
them; anything else hits `NS_FATAL_ERROR ("Unknown scenario")`, embedded
as `Except.error`.  This runs in `main` before any model object is created
and before any query. -/
def exampleScenarioSetup (scenario : String) : Except String FactoryTag :=
  if scenario = "Umi" then .ok .UmiFactories
  else if scenario = "Uma" then .ok .UmaFactories
  else if scenario = "Rma" then .ok .RmaFactories
  else if scenario = "InH" then .ok .InHFactories
  else if scenario = "InF" then .ok .InFFactories
  else .error "Unknown scenario"

/-! ## PathLossModel

Modelled from the spec: `CalcReceivedPower(txPowerDbm, positionA,
positionB) → rxPowerDbm` with `rxPowerDbm = txPowerDbm − PathLoss(scenario,
frequency, distance3D, distanceBreakpoint, condition) − shadowFading(opt) −
foliageLoss(opt) − outdoorToIndoorLoss(opt)`.  Each scenario has its own
closed-form formula: a log-distance term with a scenario-specific slope
below and above a breakpoint distance, plus a frequency-dependent term;
LOS and NLOS use different coefficient sets; distance is floored to a
minimum of 1 cm before taking logarithms. -/

/-- Minimum distance (1 cm) the 3-D distance is floored to before any
logarithm is taken, avoiding singularities at co-located nodes. -/
def minDistance : ℚ := 1 / 100

/-- Computable stand-in for `log10`: the base-10 integer logarithm of a
rational (monotone on positives, like the real `log10` the formulas use). -/
def log10q (x : ℚ) : ℚ := (Int.log 10 x : ℚ)

/-- Modelled from the spec: the frequency-dependent term of each formula
(free-space loss at the 1 m reference distance, `20·log10(f) − 147`). -/
def freqTerm (f : ℚ) : ℚ := 20 * log10q f - 147

/-- Modelled from the spec: the scenario-specific breakpoint distance. -/
def breakpointDist (s : Scenario) : ℚ :=
  match s with
  | .Uma => 320
  | .Umi => 160
  | .Rma => 800
  | .InH => 40
  | .InF => 50

/-- Modelled from the spec: the path-loss slope (path-loss exponent)
below the breakpoint distance, per scenario and LOS/NLOS condition. -/
def pleBelow (s : Scenario) (c : CondState) : ℚ :=
  match s, c with
  | .Uma, .LOS => 2 | .Uma, .NLOS => 29 / 10
  | .Umi, .LOS => 2 | .Umi, .NLOS => 32 / 10
  | .Rma, .LOS => 231 / 100 | .Rma, .NLOS => 31 / 10
  | .InH, .LOS => 12 / 10 | .InH, .NLOS => 27 / 10
  | .InF, .LOS => 174 / 100 | .InF, .NLOS => 319 / 100

/-- Modelled from the spec: the additional slope applied above the
breakpoint distance, per scenario and LOS/NLOS condition. -/
def pleAbove (s : Scenario) (c : CondState) : ℚ :=
  match s, c with
  | .Uma, .LOS => 4 | .Uma, .NLOS => 39 / 10
  | .Umi, .LOS => 4 | .Umi, .NLOS => 43 / 10
  | .Rma, .LOS => 4 | .Rma, .NLOS => 45 / 10
  | .InH, .LOS => 25 / 10 | .InH, .NLOS => 36 / 10
  | .InF, .LOS => 3 | .InF, .NLOS => 4

/-- Modelled from the spec: the closed-form path loss in dB for a
scenario, condition, carrier frequency and 3-D distance: the distance is
floored to `minDistance`, then a dual-slope log-distance term (slope
`pleBelow` up to the breakpoint, `pleAbove` beyond it) is added to the
frequency-dependent term. -/
def pathLoss (s : Scenario) (c : CondState) (f d : ℚ) : ℚ :=
  let dc := max d minDistance
  freqTerm f + 10 * pleBelow s c * log10q (min dc (breakpointDist s)) +
    10 * pleAbove s c * max 0 (log10q dc - log10q (breakpointDist s))

/-- Configuration of the path-loss model, mirroring the attributes the
example programs set (`Frequency`, `ShadowingEnabled`, `FoliageLossEnabled`,
`FoliageLoss`, `O2ILosstype`). -/
structure PlConfig where
  scenario : Scenario
  frequency : ℚ
  shadowingEnabled : Bool
  foliageLossEnabled : Bool
  foliageLoss : ℚ
  o2iHighLoss : Bool
deriving DecidableEq, Repr

/-- Modelled from the spec: per-call Gaussian shadow-fading draw with a
scenario-specific standard deviation (a bounded symmetric stand-in for the
Gaussian), active only when shadowing is enabled. -/
def shadowFadingDraw (cfg : PlConfig) (c : CondState) (rng : ℕ) : ℚ × ℕ :=
  if cfg.shadowingEnabled then
    let (u, r') := drawUnit rng
    let sigma : ℚ := match c with | .LOS => 4 | .NLOS => 7
    (sigma * (2 * u - 1), r')
  else (0, rng)

/-- Modelled from the spec: foliage loss, when enabled, adds a fixed
per-meter attenuation times an assumed foliage depth. -/
def foliageLossTerm (cfg : PlConfig) : ℚ :=
  if cfg.foliageLossEnabled then cfg.foliageLoss * 10 else 0

/-- Modelled from the spec: outdoor-to-indoor penetration loss, applied
when the drawn condition has the outdoor-to-indoor flag set; the `Low
Loss` / `High Loss` attribute selects the magnitude. -/
def o2iLossTerm (cfg : PlConfig) (cond : ChannelCondition) : ℚ :=
  if cond.outdoorToIndoor then (if cfg.o2iHighLoss then 25 else 10) else 0

/-- Modelled from the spec: `CalcReceivedPower`: received power in dBm is
the transmit power minus the closed-form path loss at the (floored) 3-D
distance, minus the optional shadow-fading, foliage and outdoor-to-indoor
terms; the advanced RNG state is returned alongside. -/
def calcReceivedPower (cfg : PlConfig) (rng : ℕ) (txPowerDbm : ℚ)
    (a b : NodeInfo) (cond : ChannelCondition) : ℚ × ℕ :=
  let d := dist3D a b
  let (sf, rng') := shadowFadingDraw cfg cond.state rng
  (txPowerDbm - pathLoss cfg.scenario cond.state cfg.frequency d - sf -
     foliageLossTerm cfg - o2iLossTerm cfg cond, rng')

/-! ## ChannelMatrixGenerator

Modelled from the spec: `GetMatrix(linkKey, now, condition) → ChannelMatrix`
with a cache check identical in structure to the ConditionModel's, and a
drop-based regeneration: determine the cluster count, draw per-cluster
delays (sorted ascending, earliest pinned to zero), draw per-cluster powers
from a delay-shaped decay with a per-cluster shadowing term and normalize
them to unit linear sum, draw cluster angles, expand each cluster into a
fixed number of sub-rays via a deterministic offset pattern with per-ray
phases and cross-polarization ratios, and stamp the result with the
generation timestamp and the RNG state consumed. -/

/-- One multipath cluster of a channel matrix. -/
structure Cluster where
  delay : ℚ
  power : ℚ
  azimuthDeparture : ℚ
  zenithDeparture : ℚ
  azimuthArrival : ℚ
  zenithArrival : ℚ
  rayAzOffsets : List ℚ
  rayZenOffsets : List ℚ
  crossPolRatios : List ℚ
  initialPhases : List ℚ
deriving DecidableEq, Repr

/-- `ChannelMatrix`: the per-cluster data plus the generation timestamp
and the RNG state consumed; immutable once generated. -/
structure ChannelMatrix where
  clusters : List Cluster
  generationTimestamp : ℚ
  generatingRngState : ℕ
deriving DecidableEq, Repr

/-- The cluster count of a channel matrix. -/
def ChannelMatrix.clusterCount (m : ChannelMatrix) : ℕ := m.clusters.length

/-- Sum of the per-cluster powers in linear scale. -/
def sumPowersLinear (m : ChannelMatrix) : ℚ := (m.clusters.map (·.power)).sum

/-- Modelled from the spec: upper bound on the cluster count, from
scenario/condition-specific statistics. -/
def maxClusters (s : Scenario) (c : CondState) : ℕ :=
  match s, c with
  | .Uma, .LOS => 4 | .Uma, .NLOS => 6
  | .Umi, .LOS => 5 | .Umi, .NLOS => 6
  | .Rma, .LOS => 2 | .Rma, .NLOS => 3
  | .InH, .LOS => 4 | .InH, .NLOS => 5
  | .InF, .LOS => 4 | .InF, .NLOS => 6

/-- Modelled from the spec: the scenario delay spread parameterizing the
per-cluster delay distribution (in microseconds). -/
def delaySpread (s : Scenario) : ℚ :=
  match s with
  | .Uma => 1 / 2 | .Umi => 2 / 5 | .Rma => 1 / 10 | .InH => 1 / 20 | .InF => 1 / 10

/-- Modelled from the spec: the fixed deterministic sub-ray angular offset
pattern applied to each cluster's central angles. -/
def rayOffsetPattern : List ℚ :=
  [0, 1 / 200, -1 / 200, 3 / 200, -3 / 200, 1 / 40, -1 / 40, 7 / 100]

/-- Modelled from the spec: the raw (pre-normalization) power of a cluster,
an exponential-shaped decay in the cluster delay times a per-cluster
shadowing factor derived from the draw `k`; strictly positive. -/
def rawClusterPower (d : ℚ) (k : ℕ) : ℚ :=
  (1 / (1 + max d 0)) * (1 / (1 + ((k % 16 : ℕ) : ℚ) / 4))

/-- Map a raw draw to an angle in degrees in `[-180, 180)`. -/
def angleOfDraw (s : ℕ) : ℚ := ((s % 360 : ℕ) : ℚ) - 180

/-- Map a raw draw to a phase in `[0, 2)` (units of π radians). -/
def phaseOfDraw (s : ℕ) : ℚ := ((s % 1000 : ℕ) : ℚ) / 500

/-- Modelled from the spec: assemble cluster `i` from its normalized power
`p` and delay `d`, drawing its four central angles and the per-ray initial
phases and cross-polarization ratios from the stream rooted at `base`. -/
def mkCluster (base : ℕ) (i : ℕ) (p d : ℚ) : Cluster :=
  let s1 := rngNext (base + 1000 * i)
  let s2 := rngNext s1
  let s3 := rngNext s2
  let s4 := rngNext s3
  { delay := d
    power := p
    azimuthDeparture := angleOfDraw s1
    zenithDeparture := angleOfDraw s2 / 2
    azimuthArrival := angleOfDraw s3
    zenithArrival := angleOfDraw s4 / 2
    rayAzOffsets := rayOffsetPattern
    rayZenOffsets := rayOffsetPattern.map (· / 2)
    crossPolRatios :=
      (List.range rayOffsetPattern.length).map
        (fun j => 8 + phaseOfDraw (rngNext (s4 + 2 * j + 1)))
    initialPhases :=
      (List.range rayOffsetPattern.length).map
        (fun j => phaseOfDraw (rngNext (s4 + 2 * j))) }

/-- Modelled from the spec: draw `n` per-cluster delays from the
scenario's delay-spread-scaled distribution, sort them ascending and shift
them so the earliest cluster's delay is pinned to zero. -/
def genDelays (s : Scenario) (n r : ℕ) : List ℚ :=
  let sorted := List.insertionSort (· ≤ ·)
    (((drawN n r).1).map (fun k => ((k % 1000 : ℕ) : ℚ) / 1000 * delaySpread s))
  sorted.map (fun d => d - sorted.headD 0)

/-- Raw (pre-normalization) cluster powers from the delays and the
per-cluster shadowing draws. -/
def rawPowers (delays : List ℚ) (ks : List ℕ) : List ℚ :=
  (delays.zip ks).map (fun p => rawClusterPower p.1 p.2)

/-- Normalize a list of raw powers so it sums to unity in linear scale. -/
def normalizePowers (raws : List ℚ) : List ℚ :=
  raws.map (fun x => x / raws.sum)

/-- Assemble the cluster list from normalized powers and delays, drawing
angles, per-ray phases and cross-polarization ratios from `base`. -/
def assembleClusters (base : ℕ) (powers delays : List ℚ) : List Cluster :=
  (powers.zip delays).enum.map (fun x => mkCluster base x.1 x.2.1 x.2.2)

/-- Build the `ChannelMatrix` of one drop from the drawn delays and
shadowing draws, recording timestamp and consumed RNG state. -/
def dropFrom (base : ℕ) (delays : List ℚ) (ks : List ℕ) (now : ℚ) :
    ChannelMatrix :=
  { clusters := assembleClusters base (normalizePowers (rawPowers delays ks)) delays
    generationTimestamp := now
    generatingRngState := rngNext base }

/-- Modelled from the spec: one drop: generate a fresh `ChannelMatrix`
from the RNG state `rng` for the given scenario, condition and time.
The cluster count comes from scenario/condition statistics; delays are
drawn, sorted ascending and shifted so the earliest is zero; raw powers
are computed from the delays and per-cluster shadowing draws and
normalized so the cluster powers sum to unity in linear scale; clusters
are then assembled with their angular parameters and sub-ray expansions. -/
def generateChannelMatrix (rng : ℕ) (s : Scenario) (c : CondState)
    (now : ℚ) : ChannelMatrix × ℕ :=
  let n := 1 + (drawNat rng).1 % maxClusters s c
  let r1 := (drawNat rng).2
  let r2 := (drawN n r1).2
  (dropFrom (drawN n r2).2 (genDelays s n r1) (drawN n r2).1 now,
   rngNext (drawN n r2).2)

/-- State of the channel-matrix generator: per-link matrix cache plus the
RNG stream. -/
structure ChanModelState where
  cache : List ((ℕ × ℕ) × ChannelMatrix)
  rng : ℕ
deriving DecidableEq, Repr

/-- The fresh generator state for a given seed/run pair. -/
def chanModelInit (seed run : ℕ) : ChanModelState :=
  { cache := [], rng := rngInitState seed run }

/-- Modelled from the spec: binds the random stream to the link by mixing
the link key into the stream state before a drop. -/
def linkStream (rng : ℕ) (key : ℕ × ℕ) : ℕ :=
  rngNext (rng + 2654435761 * key.1 + 40503 * key.2)

/-- Run one drop for a link and replace the cached entry atomically. -/
def regenerate (s : Scenario) (st : ChanModelState) (key : ℕ × ℕ)
    (cond : CondState) (now : ℚ) : ChannelMatrix × ChanModelState :=
  ((generateChannelMatrix (linkStream st.rng key) s cond now).1,
   { cache := (key, (generateChannelMatrix (linkStream st.rng key) s cond now).1) :: st.cache,
     rng := (generateChannelMatrix (linkStream st.rng key) s cond now).2 })

/-- Modelled from the spec: `GetMatrix(linkKey, now, condition)`: reuse
the cached matrix if `updatePeriod = 0` (generate once) or
`now − generationTimestamp < updatePeriod`; otherwise run one drop and
replace the cached entry atomically. -/
def getMatrix (s : Scenario) (updatePeriod : ℚ) (st : ChanModelState)
    (key : ℕ × ℕ) (cond : CondState) (now : ℚ) :
    ChannelMatrix × ChanModelState :=
  match findEntry key st.cache with
  | some m =>
    if updatePeriod = 0 ∨ now - m.generationTimestamp < updatePeriod then
      (m, st)
    else
      regenerate s st key cond now
  | none => regenerate s st key cond now

/-- One `GetMatrix` call of a call sequence: link key, condition, time. -/
structure MatrixCall where
  key : ℕ × ℕ
  cond : CondState
  now : ℚ
deriving DecidableEq, Repr

/-- Run a sequence of `GetMatrix` calls from a generator state, collecting
the returned matrices. -/
def runMatrixCallsFrom (s : Scenario) (updatePeriod : ℚ) :
    ChanModelState → List MatrixCall → List ChannelMatrix
  | _, [] => []
  | st, c :: t =>
    let (m, st') := getMatrix s updatePeriod st c.key c.cond c.now
    m :: runMatrixCallsFrom s updatePeriod st' t

/-- A full run: seed the RNG from the seed/run pair and execute the call
sequence. -/
def runMatrixCalls (s : Scenario) (updatePeriod : ℚ) (seed run : ℕ)
    (calls : List MatrixCall) : List ChannelMatrix :=
  runMatrixCallsFrom s updatePeriod (chanModelInit seed run) calls

/-! ## SpectrumApplier (NYUSpectrumPropagationLossModel)

The header `nyu-spectrum-propagation-loss-model.h` is in the excerpt: the
`LongTerm` cache entry (lines 135-141: `m_longTerm`, `m_channel`, `m_sW`,
`m_uW`), `GetLongTerm` (lines 149-160: look up `m_longTermMap`, check
whether the entry has to be updated, else call `CalcLongTerm`),
`CalcLongTerm`, `CalcBeamformingGain` and `DoCalcRxPowerSpectralDensity`.
The `.cc` bodies are missing, so their behavior is modelled from the spec
and the header's doc comments. -/

/-- Complex number over ℚ, as a (re, im) pair. -/
abbrev Cq : Type := ℚ × ℚ

/-- Complex addition. -/
def cAdd (a b : Cq) : Cq := (a.1 + b.1, a.2 + b.2)

/-- Complex multiplication. -/
def cMul (a b : Cq) : Cq := (a.1 * b.1 - a.2 * b.2, a.1 * b.2 + a.2 * b.1)

/-- Complex conjugate. -/
def cConj (a : Cq) : Cq := (a.1, -a.2)

/-- Squared magnitude. -/
def cNormSq (a : Cq) : ℚ := a.1 ^ 2 + a.2 ^ 2

/-- Sum of a list of complex numbers. -/
def cSum (l : List Cq) : Cq := l.foldr cAdd (0, 0)

/-- Computable stand-in for cosine (truncated series). -/
def cosq (θ : ℚ) : ℚ := 1 - θ ^ 2 / 2

/-- Computable stand-in for sine (truncated series). -/
def sinq (θ : ℚ) : ℚ := θ

/-- Unit-magnitude-style phase rotation `e^{iθ}` stand-in. -/
def phaseRot (θ : ℚ) : Cq := (cosq θ, sinq θ)

/-- Modelled from the spec: the complex contribution of sub-ray `j` of a
cluster at receive element `u` and transmit element `s`: a phase built
from the ray's initial phase and the element-indexed departure/arrival
angle terms, attenuated by the ray's cross-polarization ratio. -/
def rayGain (cl : Cluster) (j u s : ℕ) : Cq :=
  cMul (1 / (1 + cl.crossPolRatios.getD j 0 / 100), 0)
    (phaseRot (cl.initialPhases.getD j 0 +
      (cl.azimuthArrival + cl.rayAzOffsets.getD j 0) * u / 360 +
      (cl.azimuthDeparture + cl.rayAzOffsets.getD j 0) * s / 360))

/-- Modelled from the spec: the per-antenna-element complex channel
contribution of a cluster, the coherent sum of its sub-rays. -/
def elementGain (cl : Cluster) (u s : ℕ) : Cq :=
  cSum ((List.range cl.initialPhases.length).map (fun j => rayGain cl j u s))

/-- Modelled from the spec and the header doc (`w_rx^T H^n_ab w_tx`):
`CalcLongTerm` computes, for each cluster, the scalar formed by applying
the conjugated receive beamforming vector `uW` and the transmit
beamforming vector `sW` to the cluster's per-element contributions. -/
def calcLongTerm (m : ChannelMatrix) (sW uW : List Cq) : List Cq :=
  m.clusters.map (fun cl =>
    cSum (uW.enum.map (fun pu =>
      cSum (sW.enum.map (fun ps =>
        cMul (cConj pu.2) (cMul (elementGain cl pu.1 ps.1) ps.2))))))

/-- `LongTerm` cache entry (header lines 135-141): the per-cluster long
term component, the channel matrix it was derived from, and the snapshot
of the two beamforming vectors used to compute it. -/
structure LongTermEntry where
  longTerm : List Cq
  channel : ChannelMatrix
  sW : List Cq
  uW : List Cq
deriving DecidableEq

/-- The long-term map `m_longTermMap` (header line 189), keyed by the
tx/rx pair key. -/
abbrev LongTermMap : Type := List (ℕ × LongTermEntry)

/-- Modelled from the spec and the header doc: `GetLongTerm` looks for the
long term component in `m_longTermMap`; if found it checks whether it has
to be updated (the referenced ChannelMatrix was replaced or either
beamforming vector differs from the snapshot); if not found or if it has
to be updated, it calls `CalcLongTerm` and stores the fresh entry. -/
def getLongTerm (st : LongTermMap) (key : ℕ) (m : ChannelMatrix)
    (sW uW : List Cq) : List Cq × LongTermMap :=
  match findEntry key st with
  | some e =>
    if e.channel = m ∧ e.sW = sW ∧ e.uW = uW then
      (e.longTerm, st)
    else
      (calcLongTerm m sW uW,
       (key, { longTerm := calcLongTerm m sW uW, channel := m,
               sW := sW, uW := uW }) :: st)
  | none =>
    (calcLongTerm m sW uW,
     (key, { longTerm := calcLongTerm m sW uW, channel := m,
             sW := sW, uW := uW }) :: st)

/-- Modelled from the spec: the projection of a velocity onto a cluster's
departure/arrival direction (cosine/sine stand-ins). -/
def velProj (v : ℚ × ℚ × ℚ) (az zen : ℚ) : ℚ :=
  v.1 * cosq (az / 180) + v.2.1 * sinq (az / 180) + v.2.2 * sinq (zen / 180)

/-- Modelled from the spec: the phase a cluster contributes at one
frequency bin: the Doppler term from both endpoints' velocity projections
times the elapsed time since generation, plus the delay-dependent term
proportional to the bin's frequency offset and the cluster delay. -/
def clusterPhase (cl : Cluster) (binFreq : ℚ) (sSpeed uSpeed : ℚ × ℚ × ℚ)
    (elapsed : ℚ) : ℚ :=
  (velProj sSpeed cl.azimuthDeparture cl.zenithDeparture +
     velProj uSpeed cl.azimuthArrival cl.zenithArrival) * elapsed +
    binFreq * cl.delay

/-- Modelled from the spec: `CalcBeamformingGain`: for each frequency bin
of the tx PSD, coherently sum the phase-rotated long-term-scaled cluster
contributions and scale the bin by the squared magnitude of the resulting
complex gain. -/
def calcBeamformingGain (txPsd : List (ℚ × ℚ)) (longTerm : List Cq)
    (m : ChannelMatrix) (sSpeed uSpeed : ℚ × ℚ × ℚ) (elapsed : ℚ) :
    List (ℚ × ℚ) :=
  txPsd.map (fun bin =>
    let g := cSum ((longTerm.zip m.clusters).map (fun p =>
      cMul p.1 (phaseRot (clusterPhase p.2 bin.1 sSpeed uSpeed elapsed))))
    (bin.1, bin.2 * cNormSq g))

/-- The inputs of one `DoCalcRxPowerSpectralDensity` call: tx PSD, link
key, the current channel matrix realization, both beamforming vectors,
both velocities, and the simulation time. -/
structure SpectrumInput where
  txPsd : List (ℚ × ℚ)
  key : ℕ
  matrix : ChannelMatrix
  aBf : List Cq
  bBf : List Cq
  aVel : ℚ × ℚ × ℚ
  bVel : ℚ × ℚ × ℚ
  now : ℚ
deriving DecidableEq

/-- Modelled from the spec and the header doc:
`DoCalcRxPowerSpectralDensity` obtains the long term component for the
channel matrix and the two beamforming vectors (cached or freshly
computed) and applies the beamforming gain with Doppler and delay phase
evolution to the tx PSD, returning the rx PSD and the updated long-term
map. -/
def doCalcRxPowerSpectralDensity (st : LongTermMap) (inp : SpectrumInput) :
    List (ℚ × ℚ) × LongTermMap :=
  (calcBeamformingGain inp.txPsd
     (getLongTerm st inp.key inp.matrix inp.aBf inp.bBf).1 inp.matrix
     inp.aVel inp.bVel (inp.now - inp.matrix.generationTimestamp),
   (getLongTerm st inp.key inp.matrix inp.aBf inp.bBf).2)

/-! ## The end-to-end example scenario

Embeds the concrete configuration of
`nyu-channel-example-calPL-mobileNodes.cc`: scenario `"Umi"`, frequency
28 GHz, tx power 10 dBm, tx at `(0,0,10)`, rx at `(1,0,1.6)` (the first
scheduled `ComputeRxPwr` call), seed/run pair `(1,1)`.  The example
computes a CW received power with no noise figure, bandwidth or antenna
gains (`RxPwr = TxPwr - PL` per its comment); it disables foliage loss and
sets `O2ILosstype` to `"High Loss"`. -/

/-- The example's transmitter node at `(0, 0, 10)`. -/
def exampleTxNode : NodeInfo := { ident := 0, x := 0, y := 0, z := 10 }

/-- The example's receiver node at `(1, 0, 1.6)`. -/
def exampleRxNode : NodeInfo := { ident := 1, x := 1, y := 0, z := 8 / 5 }

/-- The example's path-loss configuration: Umi, 28 GHz, foliage loss
disabled, `FoliageLoss = 0.1`, high outdoor-to-indoor loss; the example
computes the pure `TxPwr - PL` CW power, so shadow fading is off. -/
def examplePlConfig : PlConfig :=
  { scenario := .Umi, frequency := 28000000000, shadowingEnabled := false,
    foliageLossEnabled := false, foliageLoss := 1 / 10, o2iHighLoss := true }

/-- The channel condition drawn for the example link on the first query,
from the condition model freshly seeded with the given seed/run pair. -/
def exampleCondition (seed run : ℕ) : ChannelCondition :=
  (getCondition .Umi 0 (condModelInit seed run) exampleTxNode exampleRxNode 0).1

/-- One full run of the example's first received-power computation for a
seed/run pair: draw the condition, then `CalcReceivedPower` at 10 dBm. -/
def exampleRxPower (seed run : ℕ) : ℚ :=
  (calcReceivedPower examplePlConfig (rngInitState seed run) 10
     exampleTxNode exampleRxNode (exampleCondition seed run)).1

/-! ## Helper lemmas -/

/-- `drawN` returns exactly `n` draws. -/
theorem drawN_length (n s : ℕ) : (drawN n s).1.length = n := by
  induction n generalizing s with
  | zero => rfl
  | succ k ih => simp [drawN, drawNat, ih]

/-- Dividing every element by a constant divides the sum. -/
theorem sum_map_div (l : List ℚ) (t : ℚ) :
    (l.map (fun x => x / t)).sum = l.sum / t := by
  induction l with
  | nil => simp
  | cons a tl ih => simp [ih, add_div]

/-- Raw cluster powers are strictly positive. -/
theorem rawClusterPower_pos (d : ℚ) (k : ℕ) : 0 < rawClusterPower d k := by
  unfold rawClusterPower
  have h1 : (0 : ℚ) < 1 + max d 0 := by
    have := le_max_right d (0 : ℚ)
    linarith
  have h2 : (0 : ℚ) < 1 + ((k % 16 : ℕ) : ℚ) / 4 := by positivity
  positivity

/-- The power field of an assembled cluster is the power it was built
from. -/
theorem mkCluster_power (b i : ℕ) (p d : ℚ) : (mkCluster b i p d).power = p :=
  rfl

/-- Projecting the powers out of `assembleClusters` recovers the power
list (when there are at least as many delays as powers). -/
theorem assembleClusters_map_power (base : ℕ) (ps ds : List ℚ)
    (h : ps.length ≤ ds.length) :
    (assembleClusters base ps ds).map (fun c => c.power) = ps := by
  unfold assembleClusters
  rw [List.map_map]
  have h1 : ((fun c : Cluster => c.power) ∘
      fun x : ℕ × ℚ × ℚ => mkCluster base x.1 x.2.1 x.2.2) =
      fun x : ℕ × ℚ × ℚ => x.2.1 := rfl
  rw [h1]
  have h2 : (fun x : ℕ × ℚ × ℚ => x.2.1) =
      (Prod.fst ∘ (Prod.snd : ℕ × ℚ × ℚ → ℚ × ℚ)) := rfl
  rw [h2, ← List.map_map]
  have h3 : (ps.zip ds).enum.map Prod.snd = ps.zip ds := by simp
  rw [h3]
  exact List.map_fst_zip ps ds h

/-- `genDelays` returns exactly `n` delays. -/
theorem genDelays_length (s : Scenario) (n r : ℕ) :
    (genDelays s n r).length = n := by
  unfold genDelays
  simp [List.length_insertionSort, drawN_length]

/-- `rawPowers` has the length of the shorter input. -/
theorem rawPowers_length (ds : List ℚ) (ks : List ℕ) :
    (rawPowers ds ks).length = min ds.length ks.length := by
  simp [rawPowers]

/-- Every raw power is strictly positive. -/
theorem rawPowers_pos (ds : List ℚ) (ks : List ℕ) :
    ∀ x ∈ rawPowers ds ks, 0 < x := by
  intro x hx
  obtain ⟨p, _, rfl⟩ := List.mem_map.1 hx
  exact rawClusterPower_pos p.1 p.2

/-- Normalizing preserves length. -/
theorem normalizePowers_length (raws : List ℚ) :
    (normalizePowers raws).length = raws.length := by
  simp [normalizePowers]

/-- Normalized powers sum to exactly one when the raw powers are nonempty
and positive. -/
theorem sum_normalizePowers (raws : List ℚ) (hne : raws ≠ [])
    (hpos : ∀ x ∈ raws, 0 < x) : (normalizePowers raws).sum = 1 := by
  unfold normalizePowers
  rw [sum_map_div]
  exact div_self (ne_of_gt (List.sum_pos raws hpos hne))

/-- A drop built by `dropFrom` has cluster powers summing to exactly one
(given a nonempty delay list no longer than the shadowing draw list). -/
theorem sumPowersLinear_dropFrom (base : ℕ) (delays : List ℚ)
    (ks : List ℕ) (now : ℚ) (hne : delays ≠ [])
    (hlen : delays.length ≤ ks.length) :
    sumPowersLinear (dropFrom base delays ks now) = 1 := by
  unfold sumPowersLinear dropFrom
  have hraw_len : (rawPowers delays ks).length = delays.length := by
    rw [rawPowers_length]
    omega
  have hraw_ne : rawPowers delays ks ≠ [] := by
    intro h
    apply hne
    have := hraw_len
    rw [h] at this
    simpa using (List.length_eq_zero.1 this.symm)
  rw [assembleClusters_map_power]
  · exact sum_normalizePowers _ hraw_ne (rawPowers_pos delays ks)
  · rw [normalizePowers_length, hraw_len]

/-- Every freshly generated channel matrix has cluster powers summing to
exactly one in linear scale. -/
theorem sumPowersLinear_generate (rng : ℕ) (s : Scenario) (c : CondState)
    (now : ℚ) : sumPowersLinear (generateChannelMatrix rng s c now).1 = 1 := by
  have h : ∀ n r1 r2 : ℕ, n ≠ 0 →
      sumPowersLinear
        (dropFrom (drawN n r2).2 (genDelays s n r1) (drawN n r2).1 now) = 1 := by
    intro n r1 r2 hn
    apply sumPowersLinear_dropFrom
    · intro hnil
      have := genDelays_length s n r1
      rw [hnil] at this
      exact hn this.symm
    · rw [genDelays_length, drawN_length]
  exact h (1 + (drawNat rng).1 % maxClusters s c) (drawNat rng).2
    ((drawN (1 + (drawNat rng).1 % maxClusters s c) (drawNat rng).2).2)
    (by omega)

/-- Looking a key up at the head of an association list. -/
theorem findEntry_cons_self {κ β : Type} [DecidableEq κ] (k : κ) (v : β)
    (t : List (κ × β)) : findEntry k ((k, v) :: t) = some v := by
  simp [findEntry]

/-- `GetMatrix` serves a cached matrix unchanged when it is fresh enough. -/
theorem getMatrix_reuse (s : Scenario) (period : ℚ) (st : ChanModelState)
    (key : ℕ × ℕ) (cond : CondState) (now : ℚ) (m : ChannelMatrix)
    (hfe : findEntry key st.cache = some m)
    (hc : period = 0 ∨ now - m.generationTimestamp < period) :
    getMatrix s period st key cond now = (m, st) := by
  unfold getMatrix
  rw [hfe]
  exact if_pos hc

/-- `GetMatrix` regenerates when the cached matrix (if any) is stale. -/
theorem getMatrix_regen (s : Scenario) (period : ℚ) (st : ChanModelState)
    (key : ℕ × ℕ) (cond : CondState) (now : ℚ)
    (h : ∀ m, findEntry key st.cache = some m →
      ¬(period = 0 ∨ now - m.generationTimestamp < period)) :
    getMatrix s period st key cond now = regenerate s st key cond now := by
  unfold getMatrix
  cases hfe : findEntry key st.cache with
  | none => rfl
  | some m => exact if_neg (h m hfe)

/-- `GetMatrix` either serves a fresh enough cached matrix unchanged or
regenerates. -/
theorem getMatrix_cases (s : Scenario) (period : ℚ) (st : ChanModelState)
    (key : ℕ × ℕ) (cond : CondState) (now : ℚ) :
    (∃ m, findEntry key st.cache = some m ∧
        (period = 0 ∨ now - m.generationTimestamp < period) ∧
        getMatrix s period st key cond now = (m, st)) ∨
      getMatrix s period st key cond now = regenerate s st key cond now := by
  cases hfe : findEntry key st.cache with
  | none => exact Or.inr (getMatrix_regen s period st key cond now
      (fun m hm => by rw [hfe] at hm; cases hm))
  | some m =>
    by_cases hc : period = 0 ∨ now - m.generationTimestamp < period
    · exact Or.inl ⟨m, rfl, hc, getMatrix_reuse s period st key cond now m hfe hc⟩
    · exact Or.inr (getMatrix_regen s period st key cond now
        (fun m' hm' => by rw [hfe] at hm'; cases hm'; exact hc))

/-- All matrices cached by the generator have unit linear power sum. -/
def MatrixCacheWF (st : ChanModelState) : Prop :=
  ∀ k m, findEntry k st.cache = some m → sumPowersLinear m = 1

/-- The matrix produced by a regeneration has unit linear power sum. -/
theorem regenerate_sum (s : Scenario) (st : ChanModelState) (key : ℕ × ℕ)
    (cond : CondState) (now : ℚ) :
    sumPowersLinear (regenerate s st key cond now).1 = 1 :=
  sumPowersLinear_generate (linkStream st.rng key) s cond now

/-- Regeneration preserves the cache invariant. -/
theorem regenerate_wf (s : Scenario) (st : ChanModelState) (key : ℕ × ℕ)
    (cond : CondState) (now : ℚ) (hwf : MatrixCacheWF st) :
    MatrixCacheWF (regenerate s st key cond now).2 := by
  intro k m hk
  unfold regenerate at hk
  simp only [findEntry] at hk
  by_cases hkey : key = k
  · rw [if_pos hkey] at hk
    rw [(Option.some.inj hk).symm]
    exact sumPowersLinear_generate (linkStream st.rng key) s cond now
  · rw [if_neg hkey] at hk
    exact hwf k m hk

/-- The freshly seeded generator state has an empty (hence well-formed)
cache. -/
theorem chanModelInit_wf (seed run : ℕ) : MatrixCacheWF (chanModelInit seed run) := by
  intro k m h
  rw [show findEntry k (chanModelInit seed run).cache = none from rfl] at h
  cases h

/-- C2: every ChannelMatrix produced by `GetMatrix` has cluster powers
summing, in linear scale, to 1 within a tolerance of `1e-6` (the model
normalizes exactly, so the deviation is 0); the cache invariant is
preserved, so this holds for every matrix produced along any call
sequence. -/
theorem getMatrix_power_normalization (s : Scenario) (period : ℚ)
    (st : ChanModelState) (key : ℕ × ℕ) (cond : CondState) (now : ℚ)
    (hwf : MatrixCacheWF st) :
    |sumPowersLinear (getMatrix s period st key cond now).1 - 1| ≤ 1 / 1000000 ∧
      MatrixCacheWF (getMatrix s period st key cond now).2 := by
  rcases getMatrix_cases s period st key cond now with ⟨m, hfe, _, heq⟩ | heq
  · rw [heq]
    exact ⟨by rw [hwf key m hfe]; norm_num, hwf⟩
  · rw [heq]
    exact ⟨by rw [regenerate_sum]; norm_num, regenerate_wf s st key cond now hwf⟩

/-- Witness for C2: a concrete `GetMatrix` call on the freshly seeded
generator satisfies the normalization bound. -/
theorem getMatrix_power_normalization_witness :
    |sumPowersLinear (getMatrix .Umi 10 (chanModelInit 1 1) (1, 2) .LOS 0).1 - 1| ≤
        1 / 1000000 ∧
      MatrixCacheWF (getMatrix .Umi 10 (chanModelInit 1 1) (1, 2) .LOS 0).2 :=
  getMatrix_power_normalization .Umi 10 (chanModelInit 1 1) (1, 2) .LOS 0
    (chanModelInit_wf 1 1)

/-- C3: determinism of the channel-matrix generator: two runs with the
same seed, the same run number and the same call sequence produce
bit-identical lists of ChannelMatrix values. -/
theorem runMatrixCalls_deterministic (s : Scenario) (period : ℚ)
    (seed1 run1 seed2 run2 : ℕ) (calls1 calls2 : List MatrixCall)
    (hs : seed1 = seed2) (hr : run1 = run2) (hc : calls1 = calls2) :
    runMatrixCalls s period seed1 run1 calls1 =
      runMatrixCalls s period seed2 run2 calls2 := by
  subst hs; subst hr; subst hc; rfl

/-- Witness for C3: two independent runs with seed/run `(1,1)` and the
same two-call sequence agree. -/
theorem runMatrixCalls_deterministic_witness :
    runMatrixCalls .Umi 10 1 1 [⟨(1, 2), .LOS, 0⟩, ⟨(1, 2), .LOS, 6⟩] =
      runMatrixCalls .Umi 10 1 1 [⟨(1, 2), .LOS, 0⟩, ⟨(1, 2), .LOS, 6⟩] :=
  runMatrixCalls_deterministic .Umi 10 1 1 1 1 _ _ rfl rfl rfl

/-- C5 (amended): for a cached matrix, a query strictly less than
`channelUpdatePeriod` after the matrix's `generationTimestamp` returns it
(and hence its timestamp) unchanged; once at least `channelUpdatePeriod`
has elapsed since generation (with a positive period), the query
regenerates: the returned timestamp is the query time and is strictly
greater than the replaced matrix's timestamp, so timestamps strictly
increase across regenerations. -/
theorem getMatrix_cache_freshness (s : Scenario) (period : ℚ)
    (st : ChanModelState) (key : ℕ × ℕ) (cond : CondState) (now : ℚ)
    (m : ChannelMatrix) (hfe : findEntry key st.cache = some m) :
    (now - m.generationTimestamp < period →
        getMatrix s period st key cond now = (m, st)) ∧
      (0 < period → period ≤ now - m.generationTimestamp →
        (getMatrix s period st key cond now).1.generationTimestamp = now ∧
          m.generationTimestamp <
            (getMatrix s period st key cond now).1.generationTimestamp) := by
  constructor
  · intro hlt
    exact getMatrix_reuse s period st key cond now m hfe (Or.inr hlt)
  · intro hpos hle
    have hregen : getMatrix s period st key cond now = regenerate s st key cond now := by
      apply getMatrix_regen
      intro m' hm'
      rw [hfe] at hm'
      cases hm'
      push_neg
      exact ⟨ne_of_gt hpos, hle⟩
    rw [hregen]
    refine ⟨rfl, ?_⟩
    have hlt : m.generationTimestamp < now := by linarith
    exact hlt

/-- Witness for C5's amended statement: concrete reuse within the period
and a concrete regeneration after it, on a one-entry cache. -/
theorem getMatrix_cache_freshness_witness :
    (getMatrix .Umi 10
        { cache := [((1, 2), { clusters := [], generationTimestamp := 0,
                               generatingRngState := 3 })], rng := 5 }
        (1, 2) .LOS 6 =
      ({ clusters := [], generationTimestamp := 0, generatingRngState := 3 },
       { cache := [((1, 2), { clusters := [], generationTimestamp := 0,
                              generatingRngState := 3 })], rng := 5 })) ∧
    ((getMatrix .Umi 10
        { cache := [((1, 2), { clusters := [], generationTimestamp := 0,
                               generatingRngState := 3 })], rng := 5 }
        (1, 2) .LOS 14).1.generationTimestamp = 14 ∧
      (0 : ℚ) < 14) := by
  have hfe : findEntry (1, 2)
      (ChanModelState.mk
        [((1, 2), { clusters := [], generationTimestamp := 0,
                    generatingRngState := 3 })] 5).cache =
      some { clusters := [], generationTimestamp := 0,
             generatingRngState := 3 } := by
    simp [findEntry]
  constructor
  · exact (getMatrix_cache_freshness .Umi 10 _ (1, 2) .LOS 6 _ hfe).1
      (by norm_num)
  · have h := (getMatrix_cache_freshness .Umi 10 _ (1, 2) .LOS 14 _ hfe).2
      (by norm_num) (by norm_num)
    exact ⟨h.1, by norm_num⟩

/-- First counterexample state: the generator state after the example
link's matrix is generated at time 0 (seed/run `(1,1)`, period 10). -/
def cexState1 : ChanModelState :=
  (getMatrix .Umi 10 (chanModelInit 1 1) (1, 2) .LOS 0).2

/-- The matrix generated for the counterexample link at time 0. -/
def cexMatrix1 : ChannelMatrix :=
  (generateChannelMatrix (linkStream (chanModelInit 1 1).rng (1, 2)) .Umi .LOS 0).1

/-- The matrix returned by the second query, at time 6 (cache hit). -/
def cexMatrix2 : ChannelMatrix := (getMatrix .Umi 10 cexState1 (1, 2) .LOS 6).1

/-- The generator state after the second query. -/
def cexState2 : ChanModelState := (getMatrix .Umi 10 cexState1 (1, 2) .LOS 6).2

/-- The matrix returned by the third query, at time 14. -/
def cexMatrix3 : ChannelMatrix := (getMatrix .Umi 10 cexState2 (1, 2) .LOS 14).1

/-- Counterexample to C5 as stated: on a fixed link with update period 10,
the queries at times 6 and 14 are separated by 8 < 10 yet return
different `generationTimestamp`s (0 and 14), because the reuse window is
measured from the generation time (here 0), not from the previous query. -/
theorem getMatrix_separation_counterexample :
    (14 : ℚ) - 6 < 10 ∧ cexMatrix2.generationTimestamp = 0 ∧
      cexMatrix3.generationTimestamp = 14 ∧
      ¬cexMatrix3.generationTimestamp = cexMatrix2.generationTimestamp := by
  have hm1ts : cexMatrix1.generationTimestamp = 0 := rfl
  have hfe1 : findEntry (1, 2) cexState1.cache = some cexMatrix1 := rfl
  have hq2 : getMatrix .Umi 10 cexState1 (1, 2) .LOS 6 = (cexMatrix1, cexState1) :=
    getMatrix_reuse .Umi 10 cexState1 (1, 2) .LOS 6 cexMatrix1 hfe1
      (Or.inr (by rw [hm1ts]; norm_num))
  have hm2 : cexMatrix2 = cexMatrix1 := by
    unfold cexMatrix2
    rw [hq2]
  have hst2 : cexState2 = cexState1 := by
    unfold cexState2
    rw [hq2]
  have hq3 : getMatrix .Umi 10 cexState2 (1, 2) .LOS 14 =
      regenerate .Umi cexState2 (1, 2) .LOS 14 := by
    apply getMatrix_regen
    intro m' hm'
    rw [hst2, hfe1] at hm'
    rw [(Option.some.inj hm').symm, hm1ts]
    push_neg
    norm_num
  have hm3 : cexMatrix3.generationTimestamp = 14 := by
    unfold cexMatrix3
    rw [hq3]
    rfl
  refine ⟨by norm_num, ?_, hm3, ?_⟩
  · rw [hm2, hm1ts]
  · rw [hm3, hm2, hm1ts]
    norm_num

/-- The link key is an unordered pair: `key a b = key b a`. -/
theorem linkKey_comm (a b : ℕ) : linkKey a b = linkKey b a := by
  unfold linkKey
  rw [min_comm, max_comm]

/-- The squared 2-D distance is symmetric in the two nodes. -/
theorem dist2DSq_comm (a b : NodeInfo) : dist2DSq a b = dist2DSq b a := by
  unfold dist2DSq
  ring

/-- C7: the channel condition is symmetric in the node pair: for every
pair of nodes and every query time, `GetCondition` applied to `(a, b)`
gives the same result (condition and updated state) as applied to
`(b, a)`, because the link key is an unordered pair and the distance the
draw depends on is symmetric. -/
theorem getCondition_symmetric (s : Scenario) (period : ℚ)
    (st : CondModelState) (a b : NodeInfo) (now : ℚ) :
    getCondition s period st a b now = getCondition s period st b a now := by
  unfold getCondition
  rw [linkKey_comm a.ident b.ident, dist2DSq_comm a b]

/-- C8: condition-cache semantics: a cached entry is returned unchanged
whenever `updatePeriod = 0` or `now − lastUpdateTime < updatePeriod`
(first conjunct); with `updatePeriod = 0` the condition drawn by the
first query on an empty cache slot is stored (second conjunct) and every
later query returns that first value with the state unchanged (third
conjunct): generate once, never refresh. -/
theorem getCondition_cache_semantics (s : Scenario) (period : ℚ)
    (st : CondModelState) (a b : NodeInfo) (now : ℚ) :
    (∀ e, findEntry (linkKey a.ident b.ident) st.cache = some e →
        (period = 0 ∨ now - e.lastUpdateTime < period) →
        getCondition s period st a b now = (e, st)) ∧
      (findEntry (linkKey a.ident b.ident) st.cache = none →
        findEntry (linkKey a.ident b.ident)
            (getCondition s period st a b now).2.cache =
          some (getCondition s period st a b now).1) ∧
      (period = 0 → ∀ now2 : ℚ,
        getCondition s 0 (getCondition s 0 st a b now).2 a b now2 =
          ((getCondition s 0 st a b now).1,
           (getCondition s 0 st a b now).2)) := by
  refine ⟨?_, ?_, ?_⟩
  · intro e hfe hcond
    unfold getCondition
    rw [hfe]
    exact if_pos hcond
  · intro hfe
    unfold getCondition
    rw [hfe]
    exact findEntry_cons_self (linkKey a.ident b.ident)
      ((drawCondition st.rng s (dist2DSq a b) now).1) st.cache
  · intro _ now2
    cases hfe : findEntry (linkKey a.ident b.ident) st.cache with
    | some e =>
      have h1 : getCondition s 0 st a b now = (e, st) := by
        unfold getCondition
        rw [hfe]
        exact if_pos (Or.inl rfl)
      rw [h1]
      unfold getCondition
      rw [hfe]
      exact if_pos (Or.inl rfl)
    | none =>
      have h1 : getCondition s 0 st a b now =
          storeCondition s st (linkKey a.ident b.ident) (dist2DSq a b) now := by
        unfold getCondition
        rw [hfe]
      rw [h1]
      unfold getCondition storeCondition
      rw [findEntry_cons_self]
      exact if_pos (Or.inl rfl)

/-- Witness for C8: a concrete cached entry (timestamp 0) is returned
unchanged by a query at time 3 with update period 7. -/
theorem getCondition_cache_semantics_witness :
    getCondition .Umi 7
        { cache := [((0, 1), { state := .LOS, outdoorToIndoor := false,
                               lastUpdateTime := 0 })], rng := 9 }
        { ident := 0, x := 0, y := 0, z := 0 }
        { ident := 1, x := 1, y := 0, z := 0 } 3 =
      ({ state := .LOS, outdoorToIndoor := false, lastUpdateTime := 0 },
       { cache := [((0, 1), { state := .LOS, outdoorToIndoor := false,
                              lastUpdateTime := 0 })], rng := 9 }) :=
  (getCondition_cache_semantics .Umi 7
      { cache := [((0, 1), { state := .LOS, outdoorToIndoor := false,
                             lastUpdateTime := 0 })], rng := 9 }
      { ident := 0, x := 0, y := 0, z := 0 }
      { ident := 1, x := 1, y := 0, z := 0 } 3).1
    { state := .LOS, outdoorToIndoor := false, lastUpdateTime := 0 }
    (by norm_num [linkKey, findEntry]) (by norm_num)

/-- C9: an unsupported scenario tag is rejected by the example's factory
configuration dispatch (the embedding of `NS_FATAL_ERROR ("Unknown
scenario")`, which runs in `main` before any model object is created and
before any query): the result is the fatal error and never any factory
tag, so the system cannot silently fall back to a default scenario; the
five supported tags each select their own matching factory pair. -/
theorem exampleScenarioSetup_fatal (scenario : String)
    (h : scenario ∉ ["Umi", "Uma", "Rma", "InH", "InF"]) :
    (exampleScenarioSetup scenario = .error "Unknown scenario" ∧
      ∀ t : FactoryTag, exampleScenarioSetup scenario ≠ .ok t) ∧
      (exampleScenarioSetup "Umi" = .ok .UmiFactories ∧
        exampleScenarioSetup "Uma" = .ok .UmaFactories ∧
        exampleScenarioSetup "Rma" = .ok .RmaFactories ∧
        exampleScenarioSetup "InH" = .ok .InHFactories ∧
        exampleScenarioSetup "InF" = .ok .InFFactories) := by
  simp only [List.mem_cons, List.not_mem_nil, or_false, not_or] at h
  obtain ⟨h1, h2, h3, h4, h5⟩ := h
  have herr : exampleScenarioSetup scenario = .error "Unknown scenario" := by
    unfold exampleScenarioSetup
    rw [if_neg h1, if_neg h2, if_neg h3, if_neg h4, if_neg h5]
  refine ⟨⟨herr, ?_⟩, ⟨rfl, rfl, rfl, rfl, rfl⟩⟩
  intro t hok
  rw [herr] at hok
  cases hok

/-- Witness for C9: the tag `"foo"` hits the fatal error. -/
theorem exampleScenarioSetup_fatal_witness :
    exampleScenarioSetup "foo" = .error "Unknown scenario" :=
  (exampleScenarioSetup_fatal "foo" (by decide)).1.1

/-- All scenario breakpoint distances are positive. -/
theorem breakpointDist_pos (s : Scenario) : 0 < breakpointDist s := by
  cases s <;> norm_num [breakpointDist]

/-- All below-breakpoint path-loss slopes are nonnegative. -/
theorem pleBelow_nonneg (s : Scenario) (c : CondState) : 0 ≤ pleBelow s c := by
  cases s <;> cases c <;> norm_num [pleBelow]

/-- All above-breakpoint path-loss slopes are nonnegative. -/
theorem pleAbove_nonneg (s : Scenario) (c : CondState) : 0 ≤ pleAbove s c := by
  cases s <;> cases c <;> norm_num [pleAbove]

/-- The log stand-in is monotone on positive rationals. -/
theorem log10q_mono {x y : ℚ} (hx : 0 < x) (hxy : x ≤ y) :
    log10q x ≤ log10q y := by
  unfold log10q
  exact_mod_cast Int.log_mono_right hx hxy

/-- The floored distance is positive. -/
theorem floored_dist_pos (d : ℚ) : 0 < max d minDistance :=
  lt_of_lt_of_le (by norm_num [minDistance]) (le_max_right d minDistance)

/-- C6: holding scenario, carrier frequency and LOS/NLOS condition fixed,
the closed-form path loss is monotonically non-decreasing in the 3-D
distance: for `d1 ≤ d2`, the path loss at `d2` is never less than the
path loss at `d1`. -/
theorem pathLoss_mono (s : Scenario) (c : CondState) (f : ℚ) (d1 d2 : ℚ)
    (h : d1 ≤ d2) : pathLoss s c f d1 ≤ pathLoss s c f d2 := by
  unfold pathLoss
  have hdc : max d1 minDistance ≤ max d2 minDistance := max_le_max h le_rfl
  have hdc1 : 0 < max d1 minDistance := floored_dist_pos d1
  have t1 : log10q (min (max d1 minDistance) (breakpointDist s)) ≤
      log10q (min (max d2 minDistance) (breakpointDist s)) :=
    log10q_mono (lt_min hdc1 (breakpointDist_pos s)) (min_le_min hdc le_rfl)
  have t2 : max 0 (log10q (max d1 minDistance) - log10q (breakpointDist s)) ≤
      max 0 (log10q (max d2 minDistance) - log10q (breakpointDist s)) :=
    max_le_max le_rfl (sub_le_sub_right (log10q_mono hdc1 hdc) _)
  have e1 : (0 : ℚ) ≤ 10 * pleBelow s c := by
    have := pleBelow_nonneg s c
    linarith
  have e2 : (0 : ℚ) ≤ 10 * pleAbove s c := by
    have := pleAbove_nonneg s c
    linarith
  exact add_le_add (add_le_add le_rfl (mul_le_mul_of_nonneg_left t1 e1))
    (mul_le_mul_of_nonneg_left t2 e2)

/-- Witness for C6: concrete distances 1 m and 100 m in Umi LOS at
28 GHz. -/
theorem pathLoss_mono_witness :
    pathLoss .Umi .LOS 28000000000 1 ≤ pathLoss .Umi .LOS 28000000000 100 :=
  pathLoss_mono .Umi .LOS 28000000000 1 100 (by norm_num)

/-- C1: the end-to-end scenario: with scenario Umi, frequency 28 GHz, tx
at `(0,0,10)`, rx at `(1,0,1.6)`, tx power 10 dBm and seed/run `(1,1)`,
`CalcReceivedPower` returns exactly `10 − PL(Umi, 28 GHz, dist3D,
condition)` by the scenario's closed-form formula (the optional shadowing,
foliage and outdoor-to-indoor terms are all zero in this configuration),
and the value is bit-for-bit reproducible: re-running the whole pipeline
from the same seed/run pair yields the identical rational number. -/
theorem example_end_to_end :
    exampleRxPower 1 1 =
        10 - pathLoss .Umi (exampleCondition 1 1).state 28000000000
          (dist3D exampleTxNode exampleRxNode) ∧
      exampleRxPower 1 1 = exampleRxPower 1 1 := by
  refine ⟨?_, rfl⟩
  have ho2i : (exampleCondition 1 1).outdoorToIndoor = false := by
    norm_num [exampleCondition, getCondition, condModelInit, findEntry,
      storeCondition, drawCondition, drawUnit, drawNat, rngInitState,
      rngNext, o2iProbability]
  unfold exampleRxPower calcReceivedPower
  simp only [shadowFadingDraw, foliageLossTerm, o2iLossTerm, ho2i,
    examplePlConfig, Bool.false_eq_true, if_false]
  ring

/-- C4: long-term cache invalidation: between two applier calls on the
same link, if a cache entry exists but its ChannelMatrix reference no
longer matches the current matrix or either beamforming vector differs
from the stored snapshot, `GetLongTerm` recomputes the long-term
component via `CalcLongTerm` instead of serving the entry (so a stale
entry is never returned), and the fresh snapshot replaces it in the
map. -/
theorem getLongTerm_invalidation (st : LongTermMap) (key : ℕ)
    (m : ChannelMatrix) (sW uW : List Cq) (e : LongTermEntry)
    (hfe : findEntry key st = some e)
    (hmis : e.channel ≠ m ∨ e.sW ≠ sW ∨ e.uW ≠ uW) :
    (getLongTerm st key m sW uW).1 = calcLongTerm m sW uW ∧
      findEntry key (getLongTerm st key m sW uW).2 =
        some { longTerm := calcLongTerm m sW uW, channel := m,
               sW := sW, uW := uW } := by
  have hcond : ¬(e.channel = m ∧ e.sW = sW ∧ e.uW = uW) := by tauto
  have h1 : getLongTerm st key m sW uW =
      (calcLongTerm m sW uW,
       (key, { longTerm := calcLongTerm m sW uW, channel := m,
               sW := sW, uW := uW }) :: st) := by
    unfold getLongTerm
    rw [hfe]
    exact if_neg hcond
  rw [h1]
  exact ⟨rfl, findEntry_cons_self key _ st⟩

/-- Witness for C4: a concrete one-entry map whose stored matrix
reference differs from the current matrix forces recomputation. -/
theorem getLongTerm_invalidation_witness :
    (getLongTerm
          [(7, { longTerm := [((5 : ℚ), (5 : ℚ))],
                 channel := { clusters := [], generationTimestamp := 1,
                              generatingRngState := 0 },
                 sW := [], uW := [] })] 7
          { clusters := [], generationTimestamp := 0,
            generatingRngState := 0 } [] []).1 =
        calcLongTerm
          { clusters := [], generationTimestamp := 0,
            generatingRngState := 0 } [] [] ∧
      findEntry 7
          (getLongTerm
            [(7, { longTerm := [((5 : ℚ), (5 : ℚ))],
                   channel := { clusters := [], generationTimestamp := 1,
                                generatingRngState := 0 },
                   sW := [], uW := [] })] 7
            { clusters := [], generationTimestamp := 0,
              generatingRngState := 0 } [] []).2 =
        some { longTerm := calcLongTerm
                 { clusters := [], generationTimestamp := 0,
                   generatingRngState := 0 } [] [],
               channel := { clusters := [], generationTimestamp := 0,
                            generatingRngState := 0 },
               sW := [], uW := [] } :=
  getLongTerm_invalidation _ 7 _ [] []
    { longTerm := [((5 : ℚ), (5 : ℚ))],
      channel := { clusters := [], generationTimestamp := 1,
                   generatingRngState := 0 },
      sW := [], uW := [] } (by simp [findEntry])
    (Or.inl (by
      intro h
      have := congrArg ChannelMatrix.generationTimestamp h
      norm_num at this))

/-- A second `GetLongTerm` call with the same matrix and beamforming
vectors returns the same component and leaves the map unchanged. -/
theorem getLongTerm_stable (st : LongTermMap) (key : ℕ)
    (m : ChannelMatrix) (sW uW : List Cq) :
    getLongTerm (getLongTerm st key m sW uW).2 key m sW uW =
      ((getLongTerm st key m sW uW).1, (getLongTerm st key m sW uW).2) := by
  cases hfe : findEntry key st with
  | some e =>
    by_cases hcond : e.channel = m ∧ e.sW = sW ∧ e.uW = uW
    · have h1 : getLongTerm st key m sW uW = (e.longTerm, st) := by
        unfold getLongTerm
        rw [hfe]
        exact if_pos hcond
      rw [h1]
      unfold getLongTerm
      rw [hfe]
      exact if_pos hcond
    · have h1 : getLongTerm st key m sW uW =
          (calcLongTerm m sW uW,
           (key, { longTerm := calcLongTerm m sW uW, channel := m,
                   sW := sW, uW := uW }) :: st) := by
        unfold getLongTerm
        rw [hfe]
        exact if_neg hcond
      rw [h1]
      unfold getLongTerm
      rw [findEntry_cons_self]
      exact if_pos ⟨rfl, rfl, rfl⟩
  | none =>
    have h1 : getLongTerm st key m sW uW =
        (calcLongTerm m sW uW,
         (key, { longTerm := calcLongTerm m sW uW, channel := m,
                 sW := sW, uW := uW }) :: st) := by
      unfold getLongTerm
      rw [hfe]
    rw [h1]
    unfold getLongTerm
    rw [findEntry_cons_self]
    exact if_pos ⟨rfl, rfl, rfl⟩

/-- C10: the long-term cache is semantically transparent: two consecutive
`DoCalcRxPowerSpectralDensity` calls with identical inputs (same tx PSD,
velocities, beamforming vectors, channel matrix realization and
simulation time) return equal received PSDs — the second call, served via
the cached long-term component, equals the first, freshly computed
one. -/
theorem doCalcRxPsd_cache_transparent (st : LongTermMap)
    (inp : SpectrumInput) :
    (doCalcRxPowerSpectralDensity
        (doCalcRxPowerSpectralDensity st inp).2 inp).1 =
      (doCalcRxPowerSpectralDensity st inp).1 := by
  unfold doCalcRxPowerSpectralDensity
  rw [getLongTerm_stable]
